import Mathlib

/-!
Verification of the epoch-wise training strategy scheduler in
`src/engine/vision_engine.py` (class `CenterProcessor` and the config
validator `check_cfgs`).

Modelling conventions:
* Python floats are modelled as exact rationals (`ℚ`); the float values
  appearing in the scheduler (0.1, 0.5, momenta, mixup ratios) are small
  and the properties at stake only depend on ordering and zero-tests.
* `torch.linspace(a, b, 3, dtype=torch.int32)` computes the endpoints and
  midpoint in floating point and casts to `int32` with truncation toward
  zero; this is `linspace3Int` below.  The subsequent `.round_()` on the
  already-integral tensor (line 184) is the identity and is not modelled.
* Random draws (`uniform.sample()`, `beta.sample()`) are supplied as
  oracle inputs, one pair per epoch.
* The mutable `dist_sampler['beta']` slot is an `Option ℚ` holding the
  shape parameter of the armed beta distribution (`none` = unarmed,
  mirroring `None` in the source).
-/

namespace VisionEngine

/-- Truncation toward zero of a rational, the semantics of Python's
`int(x)` on a float and of torch's float-to-int32 cast. -/
def truncZ (q : ℚ) : ℤ := if 0 ≤ q then ⌊q⌋ else ⌈q⌉

/-- `torch.linspace(a, b, 3, dtype=torch.int32).tolist()`: endpoints exact,
midpoint computed in floating point and truncated toward zero. -/
def linspace3Int (a b : ℤ) : List ℤ := [a, truncZ (((a + b : ℤ) : ℚ) / 2), b]

/-! ## Configuration (the fields of `cfgs['hyp']` / `cfgs['data']` that the
scheduler reads; `CenterProcessor.__init__` lines 112-196 and `run`
lines 270-356). -/

structure Cfg where
  epochs : ℕ
  warm_ep : ℕ
  momentum : ℚ
  warmup_momentum : ℚ
  mixup_ratio : ℚ
  mix0 : ℤ
  mix1 : ℤ
  prog_learn : Bool
  aug_epoch : ℤ
  focal_on : Bool
deriving DecidableEq

/-- Line 184: `self.mixup_chnodes = torch.linspace(*mixup_milestone, 3,
dtype=torch.int32).round_().tolist()`. -/
def mixup_chnodes (cfg : Cfg) : List ℤ := linspace3Int cfg.mix0 cfg.mix1

/-- Lines 245-246: `imgsz_milestone = torch.linspace(int(min_imgsz * 0.5),
int(min_imgsz), 3, dtype=torch.int32).tolist()`. -/
def imgsz_milestone (min_imgsz : ℤ) : List ℤ :=
  linspace3Int (truncZ ((min_imgsz : ℚ) * (1 / 2))) min_imgsz

/-! ## `auto_mixup` (lines 209-215) -/

/-- Lines 209-215.  `beta` is the current `dist_sampler['beta']`;
`mix_prob` is the uniform draw and `lam_draw` the beta draw the RNG would
produce at this call. -/
def auto_mixup (mixup : ℚ) (epoch : ℤ) (milestone : List ℤ) (beta : Option ℚ)
    (mix_prob lam_draw : ℚ) : ℚ :=
  if mixup = 0 ∨ epoch < milestone.headI ∨ beta = none then 0
  else if mix_prob < mixup then lam_draw else 0

/-! ## `auto_prog` (lines 217-251), beta-arming part (lines 238-243) -/

/-- Python's `list.index`: index of the first occurrence (only reached on
members in the source, where the guard `epoch in chnodes` holds). -/
def list_index (x : ℤ) : List ℤ → ℕ
  | [] => 0
  | a :: l => if a = x then 0 else list_index x l + 1

/-- Lines 238-243: on a change node, `alpha = chnodes.index(epoch) * 0.1`;
the beta distribution is (re)armed only when `alpha != 0`. -/
def auto_prog_beta (nodes : List ℤ) (epoch : ℤ) (beta : Option ℚ) : Option ℚ :=
  if epoch ∈ nodes then
    let alpha : ℚ := (list_index epoch nodes : ℕ) * (1 / 10)
    if alpha ≠ 0 then some alpha else beta
  else beta

/-! ## The per-epoch loop body (lines 333-356), state-passing form.

Raw loop epochs are naturals; every milestone comparison in the body uses
the shifted value `int(epoch - warm_ep)`. -/

/-- The shifted epoch `int(epoch - warm_ep)` used by lines 344-356. -/
def epShift (cfg : Cfg) (epoch : ℕ) : ℤ := (epoch : ℤ) - (cfg.warm_ep : ℤ)

/-- Line 349 guard: `int(epoch-warm_ep) == aug_epoch`. -/
def weaken_mixup_fires (cfg : Cfg) (epoch : ℕ) : Bool :=
  epShift cfg epoch == cfg.aug_epoch

/-- Line 344 guard: `int(epoch-warm_ep) == 0 and self.focal is not None`. -/
def loss_switch_fires (cfg : Cfg) (epoch : ℕ) : Bool :=
  (epShift cfg epoch == 0) && cfg.focal_on

/-- Line 349: `if int(epoch-warm_ep) == aug_epoch: self.dist_sampler['beta'] = None`. -/
def weaken_beta (cfg : Cfg) (epoch : ℕ) (beta : Option ℚ) : Option ℚ :=
  if weaken_mixup_fires cfg epoch then none else beta

/-- Lines 352-353: `if self.prog_learn: self.auto_prog(epoch=int(epoch-warm_ep))`. -/
def prog_beta (cfg : Cfg) (epoch : ℕ) (beta : Option ℚ) : Option ℚ :=
  if cfg.prog_learn then auto_prog_beta (mixup_chnodes cfg) (epShift cfg epoch) beta
  else beta

/-- One loop iteration's effect on `dist_sampler['beta']`: the weakening
write (line 349) happens before the progressive-learning write (line 353). -/
def beta_step (cfg : Cfg) (epoch : ℕ) (beta : Option ℚ) : Option ℚ :=
  prog_beta cfg epoch (weaken_beta cfg epoch beta)

/-- `dist_sampler['beta']` after `k` loop iterations of a run whose loop
starts at `start` (line 205 initialises the slot to `None`; resume does not
restore it). -/
def beta_after (cfg : Cfg) (start : ℕ) : ℕ → Option ℚ
  | 0 => none
  | k + 1 => beta_step cfg (start + k) (beta_after cfg start k)

/-- The beta slot observed by `auto_mixup` (line 356) during iteration
`epoch` of a run started at `start`: the state after the iteration's own
mutations (lines 349 and 353 precede line 356). -/
def beta_seen (cfg : Cfg) (start epoch : ℕ) : Option ℚ :=
  beta_after cfg start (epoch + 1 - start)

/-- Line 356: `lam = self.auto_mixup(mixup=mixup, epoch=int(epoch-warm_ep),
milestone=mixup_milestone)`, with the RNG oracles `u`, `lam_draw`. -/
def mixup_strength (cfg : Cfg) (start : ℕ) (u lam_draw : ℕ → ℚ) (epoch : ℕ) : ℚ :=
  auto_mixup cfg.mixup_ratio (epShift cfg epoch) [cfg.mix0, cfg.mix1]
    (beta_seen cfg start epoch) (u epoch) (lam_draw epoch)

/-! ## Numeric helper lemmas -/

lemma truncZ_of_nonneg {q : ℚ} (h : 0 ≤ q) : truncZ q = ⌊q⌋ := by
  simp [truncZ, h]

lemma truncZ_half_bounds (n : ℤ) (h : 0 ≤ n) :
    2 * truncZ ((n : ℚ) / 2) ≤ n ∧ n < 2 * truncZ ((n : ℚ) / 2) + 2 := by
  have hq : (0 : ℚ) ≤ (n : ℚ) / 2 := by positivity
  rw [truncZ_of_nonneg hq]
  have h1 : (⌊(n : ℚ) / 2⌋ : ℚ) ≤ (n : ℚ) / 2 := Int.floor_le _
  have h2 : (n : ℚ) / 2 < ⌊(n : ℚ) / 2⌋ + 1 := Int.lt_floor_add_one _
  constructor
  · have : (2 * ⌊(n : ℚ) / 2⌋ : ℚ) ≤ (n : ℚ) := by linarith
    exact_mod_cast this
  · have : (n : ℚ) < 2 * ⌊(n : ℚ) / 2⌋ + 2 := by linarith
    exact_mod_cast this

lemma truncZ_between {a b : ℤ} {q : ℚ} (ha : (a : ℚ) ≤ q) (hb : q ≤ (b : ℚ)) :
    a ≤ truncZ q ∧ truncZ q ≤ b := by
  by_cases h : 0 ≤ q
  · rw [truncZ_of_nonneg h]
    refine ⟨Int.le_floor.mpr ha, ?_⟩
    calc ⌊q⌋ ≤ ⌊(b : ℚ)⌋ := Int.floor_mono hb
      _ = b := Int.floor_intCast b
  · have : truncZ q = ⌈q⌉ := by simp [truncZ, h]
    rw [this]
    refine ⟨?_, Int.ceil_le.mpr hb⟩
    calc a = ⌈(a : ℚ)⌉ := (Int.ceil_intCast a).symm
      _ ≤ ⌈q⌉ := Int.ceil_mono ha

lemma mixup_chnodes_bounds (cfg : Cfg) (h : cfg.mix0 ≤ cfg.mix1) :
    ∀ x ∈ mixup_chnodes cfg, cfg.mix0 ≤ x ∧ x ≤ cfg.mix1 := by
  have hc : (cfg.mix0 : ℚ) ≤ (cfg.mix1 : ℚ) := by exact_mod_cast h
  have hmid := truncZ_between (a := cfg.mix0) (b := cfg.mix1)
      (q := ((cfg.mix0 + cfg.mix1 : ℤ) : ℚ) / 2) (by push_cast; linarith) (by push_cast; linarith)
  intro x hx
  simp only [mixup_chnodes, linspace3Int, List.mem_cons, List.not_mem_nil, or_false] at hx
  rcases hx with rfl | rfl | rfl
  · exact ⟨le_refl _, h⟩
  · exact hmid
  · exact ⟨h, le_refl _⟩

/-! ## Claim theorems: C10, C5, C3 -/

/-- C10: for every configuration with `mix0 < mix1`, the three
`mixup_chnodes` computed at construction (line 184) are non-decreasing and
each lies within `[mix0, mix1]`. -/
theorem C10_chnodes_sorted_and_bounded (cfg : Cfg) (h : cfg.mix0 < cfg.mix1) :
    (mixup_chnodes cfg).Chain' (· ≤ ·) ∧
      ∀ x ∈ mixup_chnodes cfg, cfg.mix0 ≤ x ∧ x ≤ cfg.mix1 := by
  have hb := mixup_chnodes_bounds cfg h.le
  refine ⟨?_, hb⟩
  have hmid := hb (truncZ (((cfg.mix0 + cfg.mix1 : ℤ) : ℚ) / 2))
    (by simp [mixup_chnodes, linspace3Int])
  simp only [mixup_chnodes, linspace3Int, List.chain'_cons, List.chain'_singleton, and_true]
  exact ⟨hmid.1, hmid.2⟩

/-- A small concrete configuration: milestones (0, 8), no warmup, used to
instantiate hypothesised theorems at explicit inputs. -/
def cfgDemo : Cfg :=
  { epochs := 10, warm_ep := 0, momentum := 937 / 1000, warmup_momentum := 8 / 10,
    mixup_ratio := 1 / 2, mix0 := 0, mix1 := 8, prog_learn := false, aug_epoch := 9,
    focal_on := false }

/-- C10 witness: the milestone pair (0, 8) yields nodes [0, 4, 8]. -/
theorem C10_witness :
    cfgDemo.mix0 < cfgDemo.mix1 ∧
      ((mixup_chnodes cfgDemo).Chain' (· ≤ ·) ∧
        ∀ x ∈ mixup_chnodes cfgDemo, cfgDemo.mix0 ≤ x ∧ x ≤ cfgDemo.mix1) :=
  ⟨by norm_num [cfgDemo], C10_chnodes_sorted_and_bounded _ (by norm_num [cfgDemo])⟩

/-- C5 counterexample: for base size 2 the resolution sequence computed at
lines 245-246 is [1, 1, 2], which is not strictly increasing, refuting the
claim at the allowed input `min_imgsz = 2`. -/
theorem C5_counterexample :
    imgsz_milestone 2 = [1, 1, 2] ∧ ¬ (imgsz_milestone 2).Chain' (· < ·) := by
  norm_num [imgsz_milestone, linspace3Int, truncZ, List.chain'_cons]

/-- C5 (amended): for every base image size at least 3, the three
progressive-learning training resolutions are strictly increasing. -/
theorem C5_imgsz_strict_mono (m : ℤ) (h : 3 ≤ m) :
    (imgsz_milestone m).Chain' (· < ·) := by
  have hm0 : (0 : ℤ) ≤ m := by omega
  have hhalf : (m : ℚ) * (1 / 2) = (m : ℚ) / 2 := by ring
  have ha := truncZ_half_bounds m hm0
  set a := truncZ ((m : ℚ) / 2) with hadef
  have ha' : truncZ ((m : ℚ) * (1 / 2)) = a := by rw [hhalf]
  have hage : 0 ≤ a + m := by omega
  have hb := truncZ_half_bounds (a + m) hage
  set b := truncZ (((a + m : ℤ) : ℚ) / 2) with hbdef
  simp only [imgsz_milestone, linspace3Int, ha', List.chain'_cons, List.chain'_singleton,
    and_true]
  constructor
  · omega
  · omega

/-- C5 witness for the amended claim: base size 3 gives [1, 2, 3]. -/
theorem C5_witness : (3 : ℤ) ≤ 3 ∧ (imgsz_milestone 3).Chain' (· < ·) :=
  ⟨by norm_num, C5_imgsz_strict_mono 3 (by norm_num)⟩

/-- C3: `auto_mixup` (lines 209-215) returns 0 when the ratio is 0, the
epoch precedes the first milestone, or no beta shape is armed; otherwise it
returns the beta draw exactly when the uniform draw is below the ratio, and
in every case the result is either 0 or the beta draw. -/
theorem C3_auto_mixup_cases (mixup mix_prob lam_draw : ℚ) (epoch m0 m1 : ℤ)
    (beta : Option ℚ) :
    auto_mixup mixup epoch [m0, m1] beta mix_prob lam_draw =
      (if mixup = 0 ∨ epoch < m0 ∨ beta = none then 0
       else if mix_prob < mixup then lam_draw else 0) ∧
    (auto_mixup mixup epoch [m0, m1] beta mix_prob lam_draw = 0 ∨
      auto_mixup mixup epoch [m0, m1] beta mix_prob lam_draw = lam_draw) := by
  constructor
  · simp [auto_mixup]
  · unfold auto_mixup
    split_ifs <;> simp

/-! ## Evolution of `dist_sampler['beta']` across the epoch loop (C1, C2) -/

lemma epShift_add_one (cfg : Cfg) (n : ℕ) :
    epShift cfg (n + 1) = epShift cfg n + 1 := by
  simp only [epShift]
  push_cast
  ring

lemma weaken_beta_none (cfg : Cfg) (epoch : ℕ) :
    weaken_beta cfg epoch none = none := by
  simp [weaken_beta]

lemma auto_prog_beta_of_not_mem {nodes : List ℤ} {e : ℤ} (h : e ∉ nodes)
    (b : Option ℚ) : auto_prog_beta nodes e b = b := by
  simp [auto_prog_beta, h]

lemma not_mem_chnodes_of_gt (cfg : Cfg) (h01 : cfg.mix0 ≤ cfg.mix1) {e : ℤ}
    (he : cfg.mix1 < e) : e ∉ mixup_chnodes cfg := by
  intro hmem
  exact absurd (mixup_chnodes_bounds cfg h01 e hmem).2 (not_le.mpr he)

/-- Once the shifted epoch is at or past `aug_epoch`, and (amendment) every
change node lies strictly before `aug_epoch` or progressive learning is
off, the loop body reduces to the weakening write on the beta slot. -/
lemma beta_step_eq_weaken (cfg : Cfg) (h01 : cfg.mix0 ≤ cfg.mix1)
    (hw : cfg.mix1 < cfg.aug_epoch ∨ cfg.prog_learn = false) (epoch : ℕ)
    (he : cfg.aug_epoch ≤ epShift cfg epoch) (b : Option ℚ) :
    beta_step cfg epoch b = weaken_beta cfg epoch b := by
  unfold beta_step prog_beta
  rcases hw with hw | hw
  · rw [auto_prog_beta_of_not_mem (not_mem_chnodes_of_gt cfg h01 (lt_of_lt_of_le hw he))]
    simp
  · simp [hw]

lemma beta_after_none_of_ge (cfg : Cfg) (h01 : cfg.mix0 ≤ cfg.mix1)
    (hw : cfg.mix1 < cfg.aug_epoch ∨ cfg.prog_learn = false) (start : ℕ) :
    ∀ k, cfg.aug_epoch ≤ epShift cfg (start + k) →
      beta_after cfg start (k + 1) = none := by
  intro k
  induction k with
  | zero =>
    intro he
    show beta_step cfg (start + 0) (beta_after cfg start 0) = none
    rw [beta_step_eq_weaken cfg h01 hw _ he]
    exact weaken_beta_none cfg _
  | succ k ih =>
    intro he
    show beta_step cfg (start + (k + 1)) (beta_after cfg start (k + 1)) = none
    rw [beta_step_eq_weaken cfg h01 hw _ he]
    by_cases hk : cfg.aug_epoch ≤ epShift cfg (start + k)
    · rw [ih hk]
      exact weaken_beta_none cfg _
    · have hstep : epShift cfg (start + (k + 1)) = epShift cfg (start + k) + 1 := by
        rw [show start + (k + 1) = start + k + 1 from rfl, epShift_add_one]
      have heq : epShift cfg (start + (k + 1)) = cfg.aug_epoch := by omega
      simp [weaken_beta, weaken_mixup_fires, heq]

lemma beta_seen_none_of_ge (cfg : Cfg) (h01 : cfg.mix0 ≤ cfg.mix1)
    (hw : cfg.mix1 < cfg.aug_epoch ∨ cfg.prog_learn = false) (start epoch : ℕ)
    (he : cfg.aug_epoch ≤ epShift cfg epoch) :
    beta_seen cfg start epoch = none := by
  unfold beta_seen
  rcases Nat.lt_or_ge epoch start with hlt | hge
  · rw [Nat.sub_eq_zero_of_le (by omega)]
    rfl
  · obtain ⟨k, hk⟩ : ∃ k, epoch + 1 - start = k + 1 := ⟨epoch - start, by omega⟩
    rw [hk]
    have hsk : start + k = epoch := by omega
    exact beta_after_none_of_ge cfg h01 hw start k (by rw [hsk]; exact he)

/-- C1 (amended): for every epoch with `epoch - warm_ep >= aug_epoch`, the
mixup strength is 0 PROVIDED `aug_epoch` is strictly later than the last
mixup change node (or progressive learning is disabled).  When `aug_epoch`
equals the last change node, the progressive-learning write (line 353) runs
after the weakening write (line 349) and re-arms the beta distribution, so
weakening does not win; see `C1_counterexample`. -/
theorem C1_weakening_zeroes_mixup (cfg : Cfg) (h01 : cfg.mix0 ≤ cfg.mix1)
    (hw : cfg.mix1 < cfg.aug_epoch ∨ cfg.prog_learn = false)
    (start : ℕ) (u lam_draw : ℕ → ℚ) (epoch : ℕ)
    (he : cfg.aug_epoch ≤ epShift cfg epoch) :
    mixup_strength cfg start u lam_draw epoch = 0 := by
  have hb := beta_seen_none_of_ge cfg h01 hw start epoch he
  simp [mixup_strength, auto_mixup, hb]

/-- A configuration with progressive learning enabled and the weakening
epoch strictly after the last change node. -/
def cfgProg : Cfg :=
  { epochs := 10, warm_ep := 0, momentum := 937 / 1000, warmup_momentum := 8 / 10,
    mixup_ratio := 1 / 2, mix0 := 0, mix1 := 2, prog_learn := true, aug_epoch := 3,
    focal_on := false }

/-- The RNG oracle used in concrete instances: uniform draw 0, beta draw 1/2. -/
def uZero : ℕ → ℚ := fun _ => 0

/-- Beta-draw oracle returning 1/2 at every epoch. -/
def lamHalf : ℕ → ℚ := fun _ => 1 / 2

/-- C1 witness: with milestones (0,2) and `aug_epoch = 3`, the strength at
(shifted) epoch 3 is 0. -/
theorem C1_witness :
    cfgProg.mix0 ≤ cfgProg.mix1 ∧ cfgProg.mix1 < cfgProg.aug_epoch ∧
      cfgProg.aug_epoch ≤ epShift cfgProg 3 ∧
      mixup_strength cfgProg 0 uZero lamHalf 3 = 0 :=
  ⟨by norm_num [cfgProg], by norm_num [cfgProg], by norm_num [cfgProg, epShift],
    C1_weakening_zeroes_mixup cfgProg (by norm_num [cfgProg])
      (Or.inl (by norm_num [cfgProg])) 0 uZero lamHalf 3
      (by norm_num [cfgProg, epShift])⟩

/-- The configuration of the C1 counterexample: `aug_epoch` equal to the
last mixup change node (allowed by `check_cfgs` line 99, which only
requires `aug_epoch >= mix_end`). -/
def cfgC1 : Cfg :=
  { epochs := 10, warm_ep := 0, momentum := 937 / 1000, warmup_momentum := 8 / 10,
    mixup_ratio := 1 / 2, mix0 := 0, mix1 := 2, prog_learn := true, aug_epoch := 2,
    focal_on := false }

lemma cfgC1_chnodes : mixup_chnodes cfgC1 = [0, 1, 2] := by
  norm_num [mixup_chnodes, cfgC1, linspace3Int, truncZ]

/-- C1 counterexample: with `warm_ep = 0`, milestones (0,2),
`aug_epoch = 2 = ` last change node and progressive learning on, at epoch 2
the weakening write clears the beta slot but `auto_prog` immediately
re-arms it with shape 0.2, and `auto_mixup` then returns the beta draw
(here 1/2), not 0 — refuting the claim that weakening wins and the
strength is 0 from `aug_epoch` on. -/
theorem C1_counterexample :
    cfgC1.aug_epoch ≤ epShift cfgC1 2 ∧
      cfgC1.aug_epoch = (mixup_chnodes cfgC1).getLastD 0 ∧
      beta_seen cfgC1 0 2 = some (1 / 5) ∧
      mixup_strength cfgC1 0 uZero lamHalf 2 = 1 / 2 := by
  have h1 : beta_after cfgC1 0 1 = none := by
    show beta_step cfgC1 0 none = none
    rw [beta_step, weaken_beta_none]
    rw [prog_beta, if_pos (by norm_num [cfgC1])]
    rw [cfgC1_chnodes, auto_prog_beta]
    norm_num [epShift, cfgC1, list_index]
  have h2 : beta_after cfgC1 0 2 = some (1 / 10) := by
    show beta_step cfgC1 1 (beta_after cfgC1 0 1) = some (1 / 10)
    rw [h1, beta_step, weaken_beta_none]
    rw [prog_beta, if_pos (by norm_num [cfgC1])]
    rw [cfgC1_chnodes, auto_prog_beta]
    norm_num [epShift, cfgC1, list_index]
  have h3 : beta_seen cfgC1 0 2 = some (1 / 5) := by
    show beta_step cfgC1 2 (beta_after cfgC1 0 2) = some (1 / 5)
    rw [h2, beta_step, weaken_beta, if_pos (by norm_num [weaken_mixup_fires, epShift, cfgC1])]
    rw [prog_beta, if_pos (by norm_num [cfgC1])]
    rw [cfgC1_chnodes, auto_prog_beta]
    norm_num [epShift, cfgC1, list_index]
  refine ⟨by norm_num [cfgC1, epShift], by rw [cfgC1_chnodes]; norm_num [cfgC1], h3, ?_⟩
  rw [mixup_strength, h3]
  have hne : (some (1 / 5 : ℚ)) ≠ none := by simp
  norm_num [auto_mixup, cfgC1, epShift, uZero, lamHalf, hne]

/-! ## C2: progressive learning disabled means the beta slot is never armed -/

lemma beta_after_none_of_no_prog (cfg : Cfg) (h : cfg.prog_learn = false)
    (start : ℕ) : ∀ k, beta_after cfg start k = none := by
  intro k
  induction k with
  | zero => rfl
  | succ k ih =>
    show beta_step cfg (start + k) (beta_after cfg start k) = none
    rw [ih, beta_step, weaken_beta_none, prog_beta, h]
    simp

/-- C2: if progressive learning is disabled, the beta distribution in
`dist_sampler` is `None` at every epoch (line 349 is the only other writer
and writes `None`; `auto_prog` is guarded by `prog_learn` at line 352), so
`auto_mixup` returns 0 at every epoch, for every mixup ratio, milestone
pair and RNG stream. -/
theorem C2_no_prog_learn_no_mixup (cfg : Cfg) (h : cfg.prog_learn = false)
    (start : ℕ) (u lam_draw : ℕ → ℚ) (epoch : ℕ) :
    beta_seen cfg start epoch = none ∧
      mixup_strength cfg start u lam_draw epoch = 0 := by
  have hb : beta_seen cfg start epoch = none :=
    beta_after_none_of_no_prog cfg h start _
  exact ⟨hb, by simp [mixup_strength, auto_mixup, hb]⟩

/-- C2 witness: the demo configuration has progressive learning off and the
strength at epoch 3 is 0. -/
theorem C2_witness :
    cfgDemo.prog_learn = false ∧
      (beta_seen cfgDemo 0 3 = none ∧ mixup_strength cfgDemo 0 uZero lamHalf 3 = 0) :=
  ⟨rfl, C2_no_prog_learn_no_mixup cfgDemo rfl 0 uZero lamHalf 3⟩

/-! ## The epoch loop bounds (lines 324-333) and the warmup transition
(lines 333-341), for C6, C7, C9. -/

/-- Line 325: `total_epoch = epochs + warm_ep`. -/
def totalEpoch (cfg : Cfg) : ℕ := cfg.epochs + cfg.warm_ep

/-- Line 333: `for epoch in range(start_epoch, total_epoch)`. -/
def epochsRun (cfg : Cfg) (start : ℕ) : List ℕ :=
  List.range' start (totalEpoch cfg - start)

/-- Lines 339-340: `if epoch == warm_ep: self.set_optimizer_momentum(momentum)`
(momentum is a per-iteration overwrite of the optimizer's momentum field,
initially the warmup momentum, per `__init__` line 144). -/
def momentum_step (cfg : Cfg) (epoch : ℕ) (m : ℚ) : ℚ :=
  if epoch = cfg.warm_ep then cfg.momentum else m

/-- Optimizer momentum after `k` iterations of a run whose loop starts at
`start`. -/
def momentum_after (cfg : Cfg) (start : ℕ) : ℕ → ℚ
  | 0 => cfg.warmup_momentum
  | k + 1 => momentum_step cfg (start + k) (momentum_after cfg start k)

/-- Momentum in effect while training epoch `epoch` (the write at line 340
precedes the epoch's training at line 360). -/
def momentum_during (cfg : Cfg) (start epoch : ℕ) : ℚ :=
  momentum_after cfg start (epoch + 1 - start)

/-- The training augmentation pipeline, abstractly: the `__init__`-time
pipeline, the validation-like pipeline installed at epoch 0 (line 336), or
the full `ClassWiseAugmenter` pipeline installed at `epoch == warm_ep`
(line 341). -/
inductive AugMode
  | initial
  | valLike
  | full
deriving DecidableEq

/-- Lines 335-341 acting on the train pipeline: line 336 runs before line
341 inside one iteration, so the iteration's final value is `full` whenever
`epoch = warm_ep`. -/
def aug_step (cfg : Cfg) (epoch : ℕ) (a : AugMode) : AugMode :=
  if epoch = cfg.warm_ep then AugMode.full
  else if epoch = 0 then AugMode.valLike else a

/-- Train pipeline after `k` iterations of a run started at `start`. -/
def aug_after (cfg : Cfg) (start : ℕ) : ℕ → AugMode
  | 0 => AugMode.initial
  | k + 1 => aug_step cfg (start + k) (aug_after cfg start k)

/-- Train pipeline in effect while training epoch `epoch`. -/
def aug_during (cfg : Cfg) (start epoch : ℕ) : AugMode :=
  aug_after cfg start (epoch + 1 - start)

/-- Number of loop iterations whose `epoch == warm_ep` test (line 339)
fires. -/
def warmup_fire_count (cfg : Cfg) (start : ℕ) : ℕ :=
  (epochsRun cfg start).countP (fun e => e == cfg.warm_ep)

lemma momentum_after_eq (cfg : Cfg) {start : ℕ} (hs : start ≤ cfg.warm_ep) :
    ∀ k, momentum_after cfg start k =
      if cfg.warm_ep < start + k then cfg.momentum else cfg.warmup_momentum := by
  intro k
  induction k with
  | zero =>
    rw [if_neg (by omega)]
    rfl
  | succ k ih =>
    show momentum_step cfg (start + k) (momentum_after cfg start k) = _
    rw [ih, momentum_step]
    by_cases h : start + k = cfg.warm_ep
    · rw [if_pos h, if_pos (by omega)]
    · rw [if_neg h]
      by_cases h2 : cfg.warm_ep < start + k
      · rw [if_pos h2, if_pos (by omega)]
      · rw [if_neg h2, if_neg (by omega)]

lemma aug_after_full (cfg : Cfg) {start : ℕ} (hs : start ≤ cfg.warm_ep) :
    ∀ k, cfg.warm_ep < start + k → aug_after cfg start k = AugMode.full := by
  intro k
  induction k with
  | zero => intro h; exact absurd h (by omega)
  | succ k ih =>
    intro h
    show aug_step cfg (start + k) (aug_after cfg start k) = _
    by_cases hw : start + k = cfg.warm_ep
    · rw [aug_step, if_pos hw]
    · have hk : cfg.warm_ep < start + k := by omega
      rw [ih hk, aug_step, if_neg hw, if_neg (by omega)]

lemma countP_beq_range' (w : ℕ) : ∀ len s : ℕ,
    (List.range' s len).countP (fun e => e == w) =
      if s ≤ w ∧ w < s + len then 1 else 0 := by
  intro len
  induction len with
  | zero =>
    intro s
    rw [if_neg (by omega)]
    rfl
  | succ len ih =>
    intro s
    rw [List.range'_succ, List.countP_cons, ih (s + 1)]
    simp only [beq_iff_eq]
    split_ifs <;> omega

/-- C7: in every run starting at or before `warm_ep` (fresh or resumed),
the warmup transition of lines 339-341 fires exactly once, namely at
`epoch == warm_ep`: from that epoch on the momentum is the steady value and
the pipeline the full configured one, and before it the momentum is still
the warmup value. -/
theorem C7_warmup_transition_once (cfg : Cfg) (start epoch : ℕ)
    (hs : start ≤ cfg.warm_ep) (hlt : cfg.warm_ep < totalEpoch cfg)
    (he : start ≤ epoch) :
    warmup_fire_count cfg start = 1 ∧
      momentum_during cfg start epoch =
        (if cfg.warm_ep ≤ epoch then cfg.momentum else cfg.warmup_momentum) ∧
      (cfg.warm_ep ≤ epoch → aug_during cfg start epoch = AugMode.full) := by
  refine ⟨?_, ?_, ?_⟩
  · rw [warmup_fire_count, epochsRun, countP_beq_range', if_pos (by omega)]
  · rw [momentum_during, momentum_after_eq cfg hs]
    by_cases h : cfg.warm_ep ≤ epoch
    · rw [if_pos (by omega), if_pos h]
    · rw [if_neg (by omega), if_neg h]
  · intro h
    exact aug_after_full cfg hs _ (by omega)

/-- A configuration with one warmup epoch, for concrete instances. -/
def cfgWarm : Cfg :=
  { epochs := 3, warm_ep := 1, momentum := 937 / 1000, warmup_momentum := 8 / 10,
    mixup_ratio := 0, mix0 := 0, mix1 := 1, prog_learn := false, aug_epoch := 2,
    focal_on := false }

/-- C7 witness: run from epoch 0 with `warm_ep = 1`, observed at epoch 2. -/
theorem C7_witness :
    (0 ≤ cfgWarm.warm_ep ∧ cfgWarm.warm_ep < totalEpoch cfgWarm ∧ 0 ≤ 2) ∧
      (warmup_fire_count cfgWarm 0 = 1 ∧
        momentum_during cfgWarm 0 2 =
          (if cfgWarm.warm_ep ≤ 2 then cfgWarm.momentum else cfgWarm.warmup_momentum) ∧
        (cfgWarm.warm_ep ≤ 2 → aug_during cfgWarm 0 2 = AugMode.full)) :=
  ⟨⟨Nat.zero_le _, by norm_num [cfgWarm, totalEpoch], by norm_num⟩,
    C7_warmup_transition_once cfgWarm 0 2 (Nat.zero_le _)
      (by norm_num [cfgWarm, totalEpoch]) (Nat.zero_le _)⟩

/-! ## Resume (lines 296-311), for C6.  Serialized collaborator states are
abstract types; `cuda` is `device != cpu` (line 310). -/

structure Ckpt (M O S E G : Type) where
  epoch : ℕ
  best_fitness : ℚ
  model : M
  ema : E
  updates : ℕ
  optimizer : O
  scheduler : S
  scaler : Option G

structure RunInit (M O S E G : Type) where
  start_epoch : ℕ
  best_fitness : ℚ
  model : M
  ema : E
  updates : ℕ
  optimizer : O
  scheduler : S
  scaler : G

/-- Lines 296-311: defaults `start_epoch = 0`, `best_fitness = 0.`, then,
when a resume checkpoint is given, `start_epoch = ckp['epoch'] + 1`,
`best_fitness = ckp['best_fitness']`, and the model / EMA / EMA-update
counter / optimizer / scheduler (and, on GPU, scaler) states are loaded
from the checkpoint. -/
def resume_init {M O S E G : Type} (m0 : M) (e0 : E) (u0 : ℕ) (o0 : O) (s0 : S)
    (g0 : G) (cuda : Bool) : Option (Ckpt M O S E G) → RunInit M O S E G
  | none => ⟨0, 0, m0, e0, u0, o0, s0, g0⟩
  | some c => ⟨c.epoch + 1, c.best_fitness, c.model, c.ema, c.updates, c.optimizer,
      c.scheduler, if cuda then c.scaler.getD g0 else g0⟩

lemma epochsRun_headI (cfg : Cfg) {s : ℕ} (h : s < totalEpoch cfg) :
    (epochsRun cfg s).headI = s := by
  rw [epochsRun]
  obtain ⟨m, hm⟩ : ∃ m, totalEpoch cfg - s = m + 1 := ⟨totalEpoch cfg - s - 1, by omega⟩
  rw [hm, List.range'_succ]
  rfl

/-- C6: resuming from a checkpoint saved at epoch `k` restores
`best_fitness`, the model/optimizer/scheduler/EMA states verbatim, the EMA
update counter exactly, and the loop continues at epoch `k + 1` (its first
iteration is `k + 1`). -/
theorem C6_resume_contract {M O S E G : Type} (m0 : M) (e0 : E) (u0 : ℕ) (o0 : O)
    (s0 : S) (g0 : G) (cuda : Bool) (c : Ckpt M O S E G) (cfg : Cfg)
    (h : c.epoch + 1 < totalEpoch cfg) :
    (resume_init m0 e0 u0 o0 s0 g0 cuda (some c)).start_epoch = c.epoch + 1 ∧
      (resume_init m0 e0 u0 o0 s0 g0 cuda (some c)).best_fitness = c.best_fitness ∧
      (resume_init m0 e0 u0 o0 s0 g0 cuda (some c)).model = c.model ∧
      (resume_init m0 e0 u0 o0 s0 g0 cuda (some c)).ema = c.ema ∧
      (resume_init m0 e0 u0 o0 s0 g0 cuda (some c)).updates = c.updates ∧
      (resume_init m0 e0 u0 o0 s0 g0 cuda (some c)).optimizer = c.optimizer ∧
      (resume_init m0 e0 u0 o0 s0 g0 cuda (some c)).scheduler = c.scheduler ∧
      (epochsRun cfg (c.epoch + 1)).headI = c.epoch + 1 :=
  ⟨rfl, rfl, rfl, rfl, rfl, rfl, rfl, epochsRun_headI cfg h⟩

/-- C6 witness: a concrete checkpoint at epoch 1 inside a 10-epoch run. -/
theorem C6_witness :
    ((1 : ℕ) + 1 < totalEpoch cfgDemo) ∧
      ((resume_init (M := ℕ) (O := ℕ) (S := ℕ) (E := ℕ) (G := ℕ) 0 0 0 0 0 0 false
          (some ⟨1, 1, 7, 8, 9, 10, 11, none⟩)).start_epoch = 1 + 1 ∧
        (resume_init (M := ℕ) (O := ℕ) (S := ℕ) (E := ℕ) (G := ℕ) 0 0 0 0 0 0 false
          (some ⟨1, 1, 7, 8, 9, 10, 11, none⟩)).best_fitness = 1 ∧
        (resume_init (M := ℕ) (O := ℕ) (S := ℕ) (E := ℕ) (G := ℕ) 0 0 0 0 0 0 false
          (some ⟨1, 1, 7, 8, 9, 10, 11, none⟩)).model = 7 ∧
        (resume_init (M := ℕ) (O := ℕ) (S := ℕ) (E := ℕ) (G := ℕ) 0 0 0 0 0 0 false
          (some ⟨1, 1, 7, 8, 9, 10, 11, none⟩)).ema = 8 ∧
        (resume_init (M := ℕ) (O := ℕ) (S := ℕ) (E := ℕ) (G := ℕ) 0 0 0 0 0 0 false
          (some ⟨1, 1, 7, 8, 9, 10, 11, none⟩)).updates = 9 ∧
        (resume_init (M := ℕ) (O := ℕ) (S := ℕ) (E := ℕ) (G := ℕ) 0 0 0 0 0 0 false
          (some ⟨1, 1, 7, 8, 9, 10, 11, none⟩)).optimizer = 10 ∧
        (resume_init (M := ℕ) (O := ℕ) (S := ℕ) (E := ℕ) (G := ℕ) 0 0 0 0 0 0 false
          (some ⟨1, 1, 7, 8, 9, 10, 11, none⟩)).scheduler = 11 ∧
        (epochsRun cfgDemo (1 + 1)).headI = 1 + 1) :=
  ⟨by norm_num [totalEpoch, cfgDemo],
    C6_resume_contract 0 0 0 0 0 0 false ⟨1, 1, 7, 8, 9, 10, 11, none⟩ cfgDemo
      (by norm_num [totalEpoch, cfgDemo])⟩

/-! ## Checkpoint writing (lines 362-385), for C8 -/

structure SaveOutcome where
  best_fitness : ℚ
  wrote_last : Bool
  wrote_best : Bool

/-- Lines 364-384 on the checkpoint-writing rank: update the running best
(line 364-365), write the record to the last slot unconditionally
(line 382), and to the best slot iff `best_fitness == fitness` after the
update (lines 383-384). -/
def save_step (best_fitness fitness : ℚ) : SaveOutcome :=
  { best_fitness := if fitness > best_fitness then fitness else best_fitness
    wrote_last := true
    wrote_best := (if fitness > best_fitness then fitness else best_fitness) == fitness }

/-- C8: every epoch's record goes to the last slot unconditionally and to
the best slot iff the epoch's fitness equals the running best after the
update (equivalently: iff the fitness is at least the previous best). -/
theorem C8_save_last_best (b f : ℚ) :
    (save_step b f).wrote_last = true ∧
      ((save_step b f).wrote_best = true ↔ (save_step b f).best_fitness = f) ∧
      ((save_step b f).wrote_best = true ↔ b ≤ f) := by
  refine ⟨rfl, by simp [save_step], ?_⟩
  by_cases h : f > b
  · simp [save_step, h, le_of_lt h]
  · simp only [save_step, if_neg h, beq_iff_eq]
    constructor
    · exact le_of_eq
    · intro hb
      exact le_antisymm hb (not_lt.mp h)

/-! ## Loop structure (C9) -/

/-- C9: the loop of line 333 runs from `start_epoch` to
`epochs + warm_ep` (exclusive), so a fresh run executes
`warm_ep + epochs` iterations; and the milestone-indexed decisions in the
body (the mixup computation of line 356, the weakening guard of line 349,
the loss switch of line 344, and the progressive-learning call of
line 353) all use the shifted epoch `epoch - warm_ep`. -/
theorem C9_loop_bounds_and_shift (cfg : Cfg) (start epoch : ℕ)
    (u lam_draw : ℕ → ℚ) (b : Option ℚ) :
    (epochsRun cfg 0).length = cfg.warm_ep + cfg.epochs ∧
      mixup_strength cfg start u lam_draw epoch =
        auto_mixup cfg.mixup_ratio ((epoch : ℤ) - (cfg.warm_ep : ℤ))
          [cfg.mix0, cfg.mix1] (beta_seen cfg start epoch) (u epoch)
          (lam_draw epoch) ∧
      (weaken_mixup_fires cfg epoch = true ↔
        (epoch : ℤ) - (cfg.warm_ep : ℤ) = cfg.aug_epoch) ∧
      (loss_switch_fires cfg epoch = true ↔
        ((epoch : ℤ) - (cfg.warm_ep : ℤ) = 0 ∧ cfg.focal_on = true)) ∧
      prog_beta cfg epoch b =
        (if cfg.prog_learn then
          auto_prog_beta (mixup_chnodes cfg) ((epoch : ℤ) - (cfg.warm_ep : ℤ)) b
         else b) := by
  refine ⟨?_, rfl, ?_, ?_, rfl⟩
  · rw [epochsRun, Nat.sub_zero, List.length_range', totalEpoch]
    exact Nat.add_comm _ _
  · simp [weaken_mixup_fires, epShift]
  · simp [loss_switch_fires, epShift, Bool.and_eq_true]

/-! ## Config validation (check_cfgs, lines 63-99), for C4 -/

/-- A Python scalar as it appears in the loss/strategy config lists. -/
inductive PyVal
  | pybool (b : Bool)
  | pynum (q : ℚ)
deriving DecidableEq

instance : Inhabited PyVal := ⟨PyVal.pybool false⟩

/-- Python truthiness of a scalar. -/
def pyTruthy : PyVal → Bool
  | PyVal.pybool b => b
  | PyVal.pynum q => q != 0

/-- Python `int()` of a scalar. -/
def pyToInt : PyVal → ℤ
  | PyVal.pybool b => if b then 1 else 0
  | PyVal.pynum q => truncZ q

/-- The loss/strategy slice of the configuration as `check_cfgs` sees it:
`loss = {ce: bool, bce: [bool, thresh, multilabel]}`,
`strategy = {focal: [on, alpha, gamma], ohem: [...], mixup: [ratio, [m0, m1]],
prog_learn: bool}`, `aug_epoch` from the data section. -/
structure StrategyCfg where
  ce : Bool
  bce : List PyVal
  focal : List PyVal
  ohem : List PyVal
  mixup_ratio : ℚ
  mix0 : ℤ
  mix1 : ℤ
  prog_learn : Bool
  aug_epoch : ℤ
deriving DecidableEq

/-- The loss and strategy assertions of `check_cfgs` (lines 79, 89, 91,
93-96, 99); `true` means every assert passes.  Line 89 is translated
exactly as written in the source: `assert hyp_cfg['loss']['bce']` tests the
truthiness of the whole bce LIST, not of its first element. -/
def check_cfgs_strategy (c : StrategyCfg) : Bool :=
  ((if c.ce then (1 : ℤ) else 0) + pyToInt c.bce.headI == 1) &&
  (!pyTruthy c.focal.headI || !c.bce.isEmpty) &&
  (!pyTruthy c.ohem.headI || !pyTruthy c.bce.headI) &&
  (decide (0 ≤ c.mixup_ratio) && decide (c.mixup_ratio ≤ 1)) &&
  decide (c.mix0 < c.mix1) &&
  (!c.prog_learn || (decide (0 < c.mixup_ratio) && decide (c.mix1 ≤ c.aug_epoch)))

/-- A configuration with focal loss enabled and the `ce` head selected
(bce disabled), which the spec says must be rejected. -/
def focalCeCfg : StrategyCfg :=
  { ce := true
    bce := [PyVal.pybool false, PyVal.pynum (1 / 2), PyVal.pybool false]
    focal := [PyVal.pybool true, PyVal.pynum (1 / 4), PyVal.pynum 2]
    ohem := [PyVal.pybool false]
    mixup_ratio := 1 / 10
    mix0 := 0
    mix1 := 2
    prog_learn := false
    aug_epoch := 2 }

/-- C4 (code_bug): a configuration with focal enabled and the `ce` head
selected passes `check_cfgs`.  Line 89 asserts the truthiness of the whole
`loss['bce']` list — always a non-empty list, hence always truthy — instead
of its first element, so the rejection the assert's own message announces
(focal only supports the bce loss; compare the correct element access
`bce[0]` in the ohem check, line 91) never fires. -/
theorem C4_focal_with_ce_not_rejected :
    pyTruthy focalCeCfg.focal.headI = true ∧
      focalCeCfg.ce = true ∧
      pyTruthy focalCeCfg.bce.headI = false ∧
      check_cfgs_strategy focalCeCfg = true := by
  refine ⟨rfl, rfl, rfl, ?_⟩
  norm_num [check_cfgs_strategy, focalCeCfg, pyToInt, pyTruthy]

end VisionEngine
